import Mathlib

/-!
Verification development for the customer reconciliation/sync core of the
dashboard repository.

The central routine is `sync_customers_to_db` (src/utils/db_service.py,
lines 127-214; the copy in src/app.py lines 86-170 is identical up to the
logging sink).  The mirror table `customer_entity` is modelled as a list of
`MirrorRow`; the pandas DataFrame produced by `fetch_customers` is modelled
as a list of `DfRow`.  Database connectivity and row-level SQL failures are
modelled by explicit oracles (`connOk`, `failDel`, `dupKey`, `failIns`):
the pure run with all oracles constantly `false` is the run in which the
store is reachable and no row-level error occurs.
-/

/-- One row of the `customer_entity` mirror table (src/utils/db_service.py,
CREATE TABLE at lines 102-116): `hubspot_id` is the remote key, the contact
fields are plain strings (the insert at lines 184-195 always supplies them). -/
structure MirrorRow where
  hubspot_id : String
  email : String
  firstname : String
  lastname : String
  phone : String
  company : String
deriving DecidableEq, Repr

/-- One row of the DataFrame handed to the sync routine.  `fetch_customers`
builds it with keys ID / Email / First Name / Last Name / Phone / Company;
the sync path reads the optional fields with `row.get(key, "N/A")`
(lines 190-194), so they are modelled as `Option String`. -/
structure DfRow where
  id : String
  email : Option String
  firstname : Option String
  lastname : Option String
  phone : Option String
  company : Option String
deriving DecidableEq, Repr

/-- The tuple bound by the INSERT at src/utils/db_service.py lines 184-195:
`str(row['ID'])` plus each optional field defaulted to "N/A". -/
def rowOfRecord (r : DfRow) : MirrorRow :=
  { hubspot_id := r.id
    email := r.email.getD "N/A"
    firstname := r.firstname.getD "N/A"
    lastname := r.lastname.getD "N/A"
    phone := r.phone.getD "N/A"
    company := r.company.getD "N/A" }

/-- The result dictionary of `sync_customers_to_db`:
`{"new": _, "skipped": _, "deleted": _, "errors": _}`. -/
structure SyncCounts where
  new : Nat
  skipped : Nat
  deleted : Nat
  errors : Nat
deriving DecidableEq, Repr

/-- The evolving state of one reconciliation pass: the working content of the
mirror table plus the four counters (lines 138-141) and the error log
(`log_error` appends one entry per logged failure). -/
structure PassState where
  store : List MirrorRow
  new : Nat
  skipped : Nat
  deleted : Nat
  errors : Nat
  log : List String
deriving DecidableEq, Repr

/-- Full outcome of a call to `sync_customers_to_db`: the returned counters,
the content of the mirror table afterwards, the error-log entries written
during the call, and whether `get_db_connection` was invoked at all
(line 132 is reached only when the listing is non-empty). -/
structure SyncOutcome where
  counts : SyncCounts
  store : List MirrorRow
  log : List String
  connAttempted : Bool
deriving DecidableEq, Repr

/-- The `SELECT hubspot_id ... WHERE hubspot_id = %s` existence probe of
lines 173-177: does the working table already hold this remote id? -/
def hasId (store : List MirrorRow) (i : String) : Bool :=
  store.any (fun row => row.hubspot_id == i)

/-- One iteration of the delete loop (src/utils/db_service.py lines 158-167):
a failing DELETE increments `error_count` and logs; a successful DELETE
removes every row with that `hubspot_id` and increments `deleted_count`. -/
def deleteStep (failDel : String → Bool) (st : PassState) (hid : String) : PassState :=
  if failDel hid then
    { st with errors := st.errors + 1
              log := st.log ++ ["Error deleting customer " ++ hid] }
  else
    { st with store := st.store.filter (fun r => r.hubspot_id != hid)
              deleted := st.deleted + 1 }

/-- One iteration of the insert loop (src/utils/db_service.py lines 170-203):
existence probe first (`existing` → skipped); otherwise the INSERT may raise
`IntegrityError` (duplicate key → skipped), raise some other exception
(→ error, logged), or succeed (row appended, new). -/
def insertStep (dupKey : DfRow → Bool) (failIns : DfRow → Bool)
    (st : PassState) (r : DfRow) : PassState :=
  if hasId st.store r.id then
    { st with skipped := st.skipped + 1 }
  else if dupKey r then
    { st with skipped := st.skipped + 1 }
  else if failIns r then
    { st with errors := st.errors + 1
              log := st.log ++ ["Error inserting customer " ++ r.id] }
  else
    { st with store := st.store ++ [rowOfRecord r]
              new := st.new + 1 }

/-- `sync_customers_to_db` (src/utils/db_service.py lines 127-214).
Structure mirrors the source: empty/absent listing returns all-zero counts
before any connection attempt (lines 129-130); a failed connection returns
`errors = 1` with a logged connectivity error (lines 132-136); otherwise the
pass builds the two id sets (Python `set(...)`, modelled by `List.dedup`),
deletes `db_ids − api_ids`, then runs the insert loop over the listing in
upstream order, and returns the four counters (line 208). -/
def sync_customers_to_db (connOk : Bool) (failDel : String → Bool)
    (dupKey : DfRow → Bool) (failIns : DfRow → Bool)
    (store : List MirrorRow) (customers_df : Option (List DfRow)) : SyncOutcome :=
  match customers_df with
  | none => ⟨⟨0, 0, 0, 0⟩, store, [], false⟩
  | some recs =>
    if recs.length = 0 then ⟨⟨0, 0, 0, 0⟩, store, [], false⟩
    else if connOk = false then
      ⟨⟨0, 0, 0, 1⟩, store, ["Cannot connect to database for sync"], true⟩
    else
      let db_hubspot_ids := (store.map (fun r => r.hubspot_id)).dedup
      let api_hubspot_ids := (recs.map (fun r => r.id)).dedup
      let ids_to_delete := db_hubspot_ids.filter (fun i => !(api_hubspot_ids.contains i))
      let st1 := ids_to_delete.foldl (deleteStep failDel) ⟨store, 0, 0, 0, 0, []⟩
      let st2 := recs.foldl (insertStep dupKey failIns) st1
      ⟨⟨st2.new, st2.skipped, st2.deleted, st2.errors⟩, st2.store, st2.log, true⟩

/-- `ids_to_delete = db_hubspot_ids - api_hubspot_ids` (lines 148-154): both
sides are Python sets, modelled as deduplicated lists. -/
def ids_to_delete (store : List MirrorRow) (recs : List DfRow) : List String :=
  ((store.map (fun r => r.hubspot_id)).dedup).filter
    (fun i => !(((recs.map (fun r => r.id)).dedup).contains i))

/-- The body of the main `try` block (lines 143-205): delete loop over
`ids_to_delete` followed by the insert loop over the listing, starting from
zero counters and an empty log. -/
def syncPass (failDel : String → Bool) (dupKey : DfRow → Bool) (failIns : DfRow → Bool)
    (store : List MirrorRow) (recs : List DfRow) : PassState :=
  recs.foldl (insertStep dupKey failIns)
    ((ids_to_delete store recs).foldl (deleteStep failDel) ⟨store, 0, 0, 0, 0, []⟩)

/-- One DML statement executed by the pass, plus the single `conn.commit()`
(line 205).  Used to model the transactional structure of the pass: pymysql
runs with autocommit off, so the row operations take effect durably only at
the commit. -/
inductive SyncEvent where
  | deleteRow (hubspot_id : String)
  | insertRow (r : DfRow)
  | commit
deriving DecidableEq, Repr

/-- The insert-loop DML trace of a pass with reachable store and no row
failures: one `insertRow` per record whose id is absent from the working
table at probe time (lines 170-196). -/
def insertEvents : List MirrorRow → List DfRow → List SyncEvent
  | _, [] => []
  | cur, r :: rest =>
    if hasId cur r.id then insertEvents cur rest
    else SyncEvent.insertRow r :: insertEvents (cur ++ [rowOfRecord r]) rest

/-- The full DML trace of a no-row-error pass over a reachable store:
the deletes of lines 157-164, the inserts of lines 170-196, then the single
`conn.commit()` of line 205.  There is no other commit in the pass. -/
def syncEvents (store : List MirrorRow) (recs : List DfRow) : List SyncEvent :=
  (ids_to_delete store recs).map SyncEvent.deleteRow
    ++ insertEvents (store.filter (fun r => (recs.map (fun q => q.id)).contains r.hubspot_id)) recs
    ++ [SyncEvent.commit]

/-- Transactional state: `committed` is what a concurrent reader (or a crash)
observes; `working` is the connection's own uncommitted view. -/
structure TxState where
  committed : List MirrorRow
  working : List MirrorRow
deriving DecidableEq, Repr

/-- Effect of one event: DML mutates only the working view; `commit` makes
the working view durable. -/
def applyEvent (st : TxState) : SyncEvent → TxState
  | SyncEvent.deleteRow hid => { st with working := st.working.filter (fun r => r.hubspot_id != hid) }
  | SyncEvent.insertRow r => { st with working := st.working ++ [rowOfRecord r] }
  | SyncEvent.commit => { st with committed := st.working }

/-- Run a prefix of the pass's events against an initially clean transaction
on `store`. -/
def runEvents (store : List MirrorRow) (evs : List SyncEvent) : TxState :=
  evs.foldl applyEvent ⟨store, store⟩

/-- Result dictionary of `update_customer` (src/app.py lines 248-286 and the
identical copy in src/pages/customers/view.py lines 78-116), plus whether the
HTTP PATCH was issued at all. -/
structure UpdateResult where
  success : Bool
  error : Option String
  httpCalled : Bool
deriving DecidableEq, Repr

/-- Python truthiness of an optional string argument: `if email:` is false
for `None` and for the empty string. -/
def truthy (v : Option String) : Bool :=
  match v with
  | none => false
  | some s => !(s == "")

/-- `if field: properties[key] = field` (src/app.py lines 255-264): append
the pair only when the argument is truthy; insertion order follows the
source. -/
def appendIfProvided (props : List (String × String)) (key : String)
    (v : Option String) : List (String × String) :=
  match v with
  | none => props
  | some s => if s == "" then props else props ++ [(key, s)]

/-- The `properties` dict built by `update_customer` (lines 252-264). -/
def update_customer_properties (email firstname lastname phone company : Option String) :
    List (String × String) :=
  appendIfProvided (appendIfProvided (appendIfProvided (appendIfProvided
    (appendIfProvided [] "email" email) "firstname" firstname) "lastname" lastname)
    "phone" phone) "company" company

/-- `update_customer` (src/app.py lines 248-286): zero provided fields are
rejected before any network call (lines 266-267); otherwise the PATCH is
issued and its outcome (modelled by the `patchOk` oracle on the sent
property list) decides the result. -/
def update_customer (patchOk : List (String × String) → Bool) (contact_id : String)
    (email firstname lastname phone company : Option String) : UpdateResult :=
  let properties := update_customer_properties email firstname lastname phone company
  if properties = [] then
    { success := false, error := some "No properties provided to update", httpCalled := false }
  else if patchOk properties then
    { success := true, error := none, httpCalled := true }
  else
    { success := false, error := some ("API Error: " ++ contact_id), httpCalled := true }

/-- One contact object of the remote listing: `contact.get("id")` may be
absent; `contact.get("properties", {})` may be absent, else it is a string
property bag. -/
structure ApiContact where
  id : Option String
  props : Option (List (String × String))
deriving DecidableEq, Repr

/-- The record `fetch_customers` builds per contact (src/app.py lines
190-202): the ID as fetched, and each optional field looked up in the
property bag with default "N/A". -/
structure FetchedCustomer where
  id : Option String
  email : String
  firstName : String
  lastName : String
  phone : String
  company : String
deriving DecidableEq, Repr

/-- `contact.get("properties", {}).get(key, "N/A")`. -/
def contactField (c : ApiContact) (key : String) : String :=
  match (c.props.getD []).lookup key with
  | some v => v
  | none => "N/A"

/-- The per-contact dictionary construction of lines 192-199. -/
def parseContact (c : ApiContact) : FetchedCustomer :=
  { id := c.id
    email := contactField c "email"
    firstName := contactField c "firstname"
    lastName := contactField c "lastname"
    phone := contactField c "phone"
    company := contactField c "company" }

/-- The parsing core of `fetch_customers` (src/app.py lines 184-202): an
empty result list yields `None` (lines 185-187), otherwise each contact is
parsed into a `FetchedCustomer`. -/
def fetch_customers (contacts : List ApiContact) : Option (List FetchedCustomer) :=
  if contacts.isEmpty then none
  else some (contacts.map parseContact)

theorem hasId_iff (store : List MirrorRow) (i : String) :
    hasId store i = true ↔ i ∈ store.map (fun r => r.hubspot_id) := by
  simp [hasId, List.any_eq_true, List.mem_map, beq_iff_eq]

theorem hasId_eq_false_iff (store : List MirrorRow) (i : String) :
    hasId store i = false ↔ i ∉ store.map (fun r => r.hubspot_id) := by
  rw [← hasId_iff]
  simp [Bool.not_eq_true]

/-- With `failDel` never firing, the delete loop leaves the non-store fields
of the pass state alone apart from `deleted`, which counts the attempted ids
(the source increments `deleted_count` once per id, lines 160-164). -/
theorem deleteLoop_counts (ids : List String) (st : PassState) :
    ((ids.foldl (deleteStep (fun _ => false)) st).new = st.new)
    ∧ ((ids.foldl (deleteStep (fun _ => false)) st).skipped = st.skipped)
    ∧ ((ids.foldl (deleteStep (fun _ => false)) st).deleted = st.deleted + ids.length)
    ∧ ((ids.foldl (deleteStep (fun _ => false)) st).errors = st.errors)
    ∧ ((ids.foldl (deleteStep (fun _ => false)) st).log = st.log) := by
  induction ids generalizing st with
  | nil => simp
  | cons a l ih =>
    rw [List.foldl_cons]
    have key : deleteStep (fun _ => false) st a =
        { st with store := st.store.filter (fun r => r.hubspot_id != a),
                  deleted := st.deleted + 1 } := by
      simp [deleteStep]
    rw [key]
    have h := ih { st with store := st.store.filter (fun r => r.hubspot_id != a),
                           deleted := st.deleted + 1 }
    simp only [] at h
    obtain ⟨h1, h2, h3, h4, h5⟩ := h
    refine ⟨h1, h2, ?_, h4, h5⟩
    simp only [List.length_cons]
    omega

/-- With `failDel` never firing, a row survives the delete loop exactly when
its `hubspot_id` is not among the attempted ids (DELETE removes every row with
the matching key, line 160-163). -/
theorem deleteLoop_mem (ids : List String) (st : PassState) (row : MirrorRow) :
    row ∈ (ids.foldl (deleteStep (fun _ => false)) st).store ↔
      row ∈ st.store ∧ row.hubspot_id ∉ ids := by
  induction ids generalizing st with
  | nil => simp
  | cons a l ih =>
    simp only [List.foldl_cons, deleteStep, if_neg Bool.false_ne_true]
    rw [ih]
    simp only [List.mem_filter, List.mem_cons, bne_iff_ne, ne_eq, decide_not,
      Bool.not_eq_eq_eq_not, Bool.not_true, decide_eq_false_iff_not]
    tauto

/-- For any delete-failure oracle, a row whose id is not among the attempted
ids is untouched by the delete loop. -/
theorem deleteLoop_mem_mono (failDel : String → Bool) (ids : List String)
    (st : PassState) (row : MirrorRow)
    (hmem : row ∈ st.store) (hid : row.hubspot_id ∉ ids) :
    row ∈ (ids.foldl (deleteStep failDel) st).store := by
  induction ids generalizing st with
  | nil => exact hmem
  | cons a l ih =>
    simp only [List.mem_cons, not_or] at hid
    simp only [List.foldl_cons, deleteStep]
    by_cases hf : failDel a = true
    · rw [if_pos hf]; exact ih _ (by simpa using hmem) hid.2
    · rw [if_neg hf]
      exact ih _ (by simp [List.mem_filter, hmem, hid.1]) hid.2

/-- The insert loop never removes a row from the working table, for any
oracles: every branch of lines 170-203 leaves the table alone or appends. -/
theorem insertLoop_mem_mono (dupKey failIns : DfRow → Bool) (recs : List DfRow)
    (st : PassState) (row : MirrorRow) (hmem : row ∈ st.store) :
    row ∈ (recs.foldl (insertStep dupKey failIns) st).store := by
  induction recs generalizing st with
  | nil => exact hmem
  | cons r l ih =>
    simp only [List.foldl_cons, insertStep]
    by_cases h1 : hasId st.store r.id = true
    · rw [if_pos h1]; exact ih _ hmem
    · rw [if_neg h1]
      by_cases h2 : dupKey r = true
      · rw [if_pos h2]; exact ih _ hmem
      · rw [if_neg h2]
        by_cases h3 : failIns r = true
        · rw [if_pos h3]; exact ih _ hmem
        · rw [if_neg h3]; exact ih _ (by simp [hmem])

/-- Accounting across the whole insert loop, for arbitrary oracles: every
record of the listing bumps exactly one of new/skipped/errors, each error
appends exactly one log entry, and the loop never touches `deleted`. -/
theorem insertLoop_accounting (dupKey failIns : DfRow → Bool) (recs : List DfRow)
    (st : PassState) :
    ((recs.foldl (insertStep dupKey failIns) st).new
        + (recs.foldl (insertStep dupKey failIns) st).skipped
        + (recs.foldl (insertStep dupKey failIns) st).errors
      = st.new + st.skipped + st.errors + recs.length)
    ∧ ((recs.foldl (insertStep dupKey failIns) st).log.length + st.errors
      = st.log.length + (recs.foldl (insertStep dupKey failIns) st).errors)
    ∧ ((recs.foldl (insertStep dupKey failIns) st).deleted = st.deleted) := by
  induction recs generalizing st with
  | nil => simp
  | cons r l ih =>
    rw [List.foldl_cons]
    by_cases h1 : hasId st.store r.id = true
    · have key : insertStep dupKey failIns st r =
          { st with skipped := st.skipped + 1 } := by simp [insertStep, h1]
      rw [key]
      have h := ih { st with skipped := st.skipped + 1 }
      try simp only [] at h
      obtain ⟨ha, hb, hc⟩ := h
      refine ⟨?_, hb, hc⟩
      simp only [List.length_cons]
      omega
    · by_cases h2 : dupKey r = true
      · have key : insertStep dupKey failIns st r =
            { st with skipped := st.skipped + 1 } := by simp [insertStep, h1, h2]
        rw [key]
        have h := ih { st with skipped := st.skipped + 1 }
        try simp only [] at h
        obtain ⟨ha, hb, hc⟩ := h
        refine ⟨?_, hb, hc⟩
        simp only [List.length_cons]
        omega
      · by_cases h3 : failIns r = true
        · have key : insertStep dupKey failIns st r =
              { st with errors := st.errors + 1, log := st.log ++ ["Error inserting customer " ++ r.id] } := by
            simp [insertStep, h1, h2, h3]
          rw [key]
          have h := ih { st with errors := st.errors + 1, log := st.log ++ ["Error inserting customer " ++ r.id] }
          try simp only [] at h
          obtain ⟨ha, hb, hc⟩ := h
          simp only [List.length_append, List.length_cons, List.length_nil] at ha hb
          refine ⟨?_, ?_, hc⟩
          · simp only [List.length_cons]
            omega
          · omega
        · have key : insertStep dupKey failIns st r =
              { st with store := st.store ++ [rowOfRecord r], new := st.new + 1 } := by
            simp [insertStep, h1, h2, h3]
          rw [key]
          have h := ih { st with store := st.store ++ [rowOfRecord r], new := st.new + 1 }
          try simp only [] at h
          obtain ⟨ha, hb, hc⟩ := h
          refine ⟨?_, hb, hc⟩
          simp only [List.length_cons]
          omega

theorem hasId_append (a b : List MirrorRow) (i : String) :
    hasId (a ++ b) i = (hasId a i || hasId b i) := by
  simp [hasId, List.any_append]

theorem hasId_single (r : DfRow) (i : String) :
    hasId [rowOfRecord r] i = (r.id == i) := by
  simp [hasId, rowOfRecord]

/-- With no insert failures, the ids present after the insert loop are the
ids present before plus the ids of the listing: lines 170-203 insert exactly
the records whose id is not yet present. -/
theorem insertLoop_mem_ids (recs : List DfRow) (st : PassState) (x : String) :
    x ∈ (recs.foldl (insertStep (fun _ => false) (fun _ => false)) st).store.map
          (fun r => r.hubspot_id)
      ↔ x ∈ st.store.map (fun r => r.hubspot_id) ∨ x ∈ recs.map (fun r => r.id) := by
  induction recs generalizing st with
  | nil => simp
  | cons r l ih =>
    rw [List.foldl_cons]
    by_cases h1 : hasId st.store r.id = true
    · have key : insertStep (fun _ => false) (fun _ => false) st r =
          { st with skipped := st.skipped + 1 } := by simp [insertStep, h1]
      rw [key, ih { st with skipped := st.skipped + 1 }]
      rw [hasId_iff] at h1
      simp only [List.map_cons, List.mem_cons]
      constructor
      · rintro (h | h)
        · exact Or.inl h
        · exact Or.inr (Or.inr h)
      · rintro (h | rfl | h)
        · exact Or.inl h
        · exact Or.inl h1
        · exact Or.inr h
    · have key : insertStep (fun _ => false) (fun _ => false) st r =
          { st with store := st.store ++ [rowOfRecord r], new := st.new + 1 } := by
        simp [insertStep, h1]
      rw [key, ih { st with store := st.store ++ [rowOfRecord r], new := st.new + 1 }]
      simp only [List.map_append, List.mem_append, List.map_cons, List.mem_cons,
        rowOfRecord, List.map_nil, List.mem_singleton]
      tauto

/-- With no insert failures and a duplicate-free listing, the insert loop
classifies each record against the table as it stood when the loop started:
`new_count` counts the absent ids, `skipped_count` the present ones, and the
error counter, log and `deleted_count` are untouched. -/
theorem insertLoop_counts_noFail (recs : List DfRow) (st : PassState)
    (hnd : (recs.map (fun r => r.id)).Nodup) :
    ((recs.foldl (insertStep (fun _ => false) (fun _ => false)) st).new
       = st.new + recs.countP (fun r => !(hasId st.store r.id)))
    ∧ ((recs.foldl (insertStep (fun _ => false) (fun _ => false)) st).skipped
       = st.skipped + recs.countP (fun r => hasId st.store r.id))
    ∧ ((recs.foldl (insertStep (fun _ => false) (fun _ => false)) st).errors = st.errors)
    ∧ ((recs.foldl (insertStep (fun _ => false) (fun _ => false)) st).log = st.log)
    ∧ ((recs.foldl (insertStep (fun _ => false) (fun _ => false)) st).deleted = st.deleted) := by
  induction recs generalizing st with
  | nil => simp
  | cons r l ih =>
    rw [List.map_cons, List.nodup_cons] at hnd
    obtain ⟨hr, hl⟩ := hnd
    rw [List.foldl_cons]
    by_cases h1 : hasId st.store r.id = true
    · have key : insertStep (fun _ => false) (fun _ => false) st r =
          { st with skipped := st.skipped + 1 } := by simp [insertStep, h1]
      rw [key]
      have h := ih { st with skipped := st.skipped + 1 } hl
      try simp only [] at h
      obtain ⟨ha, hb, hc, hd, he⟩ := h
      refine ⟨?_, ?_, hc, hd, he⟩
      · rw [ha]
        simp [List.countP_cons, h1]
        try omega
      · rw [hb]
        simp [List.countP_cons, h1]
        try omega
    · have key : insertStep (fun _ => false) (fun _ => false) st r =
          { st with store := st.store ++ [rowOfRecord r], new := st.new + 1 } := by
        simp [insertStep, h1]
      rw [key]
      have h := ih { st with store := st.store ++ [rowOfRecord r], new := st.new + 1 } hl
      try simp only [] at h
      obtain ⟨ha, hb, hc, hd, he⟩ := h
      have hsame : ∀ r' ∈ l, hasId (st.store ++ [rowOfRecord r]) r'.id = hasId st.store r'.id := by
        intro r' hr'
        rw [hasId_append, hasId_single]
        have : (r.id == r'.id) = false := by
          have : r.id ≠ r'.id := by
            intro hcontra
            exact hr (hcontra ▸ List.mem_map_of_mem (fun q => q.id) hr')
          simpa using this
        rw [this, Bool.or_false]
      have hcount1 : l.countP (fun r' => !(hasId (st.store ++ [rowOfRecord r]) r'.id))
          = l.countP (fun r' => !(hasId st.store r'.id)) :=
        List.countP_congr (by intro r' hr'; rw [hsame r' hr'])
      have hcount2 : l.countP (fun r' => hasId (st.store ++ [rowOfRecord r]) r'.id)
          = l.countP (fun r' => hasId st.store r'.id) :=
        List.countP_congr (by intro r' hr'; rw [hsame r' hr'])
      rw [hcount1] at ha
      rw [hcount2] at hb
      refine ⟨?_, ?_, hc, hd, he⟩
      · rw [ha]
        simp [List.countP_cons, h1]
        try omega
      · rw [hb]
        simp [List.countP_cons, h1]
        try omega

/-- On a non-empty listing with reachable store, `sync_customers_to_db` is
the pass body: counters, final table and log all come from `syncPass`. -/
theorem sync_eq_pass (failDel : String → Bool) (dupKey failIns : DfRow → Bool)
    (store : List MirrorRow) (recs : List DfRow) (hne : recs ≠ []) :
    sync_customers_to_db true failDel dupKey failIns store (some recs) =
      ⟨⟨(syncPass failDel dupKey failIns store recs).new,
        (syncPass failDel dupKey failIns store recs).skipped,
        (syncPass failDel dupKey failIns store recs).deleted,
        (syncPass failDel dupKey failIns store recs).errors⟩,
       (syncPass failDel dupKey failIns store recs).store,
       (syncPass failDel dupKey failIns store recs).log, true⟩ := by
  have hlen : ¬ recs.length = 0 := by simpa [List.length_eq_zero] using hne
  simp [sync_customers_to_db, syncPass, ids_to_delete, hlen]

theorem deleteLoop_mem_ids (ids : List String) (st : PassState) (x : String) :
    x ∈ (ids.foldl (deleteStep (fun _ => false)) st).store.map (fun r => r.hubspot_id) ↔
      x ∈ st.store.map (fun r => r.hubspot_id) ∧ x ∉ ids := by
  simp only [List.mem_map]
  constructor
  · rintro ⟨row, hrow, rfl⟩
    rw [deleteLoop_mem] at hrow
    exact ⟨⟨row, hrow.1, rfl⟩, hrow.2⟩
  · rintro ⟨⟨row, hrow, rfl⟩, hx⟩
    exact ⟨row, (deleteLoop_mem _ _ _).mpr ⟨hrow, hx⟩, rfl⟩

theorem mem_ids_to_delete (store : List MirrorRow) (recs : List DfRow) (x : String) :
    x ∈ ids_to_delete store recs ↔
      x ∈ store.map (fun r => r.hubspot_id) ∧ x ∉ recs.map (fun r => r.id) := by
  simp [ids_to_delete, List.mem_filter, List.mem_dedup, List.contains]

/-- Set-level correctness of the no-failure pass: the ids of the final table
are exactly the ids of the listing. -/
theorem syncPass_noFail_mem (store : List MirrorRow) (recs : List DfRow) (x : String) :
    x ∈ (syncPass (fun _ => false) (fun _ => false) (fun _ => false) store recs).store.map
        (fun r => r.hubspot_id)
      ↔ x ∈ recs.map (fun r => r.id) := by
  unfold syncPass
  rw [insertLoop_mem_ids, deleteLoop_mem_ids, mem_ids_to_delete]
  by_cases h : x ∈ store.map (fun r => r.hubspot_id) <;>
    by_cases h2 : x ∈ recs.map (fun r => r.id) <;> simp [h, h2]

/-- After the delete phase, the working table holds a record id exactly when
the original table held it and the listing still lists it; for a record of
the listing, that is simply "the original table held it". -/
theorem deletePhase_hasId (store : List MirrorRow) (recs : List DfRow) (r : DfRow)
    (hr : r ∈ recs) :
    hasId ((ids_to_delete store recs).foldl (deleteStep (fun _ => false))
        ⟨store, 0, 0, 0, 0, []⟩).store r.id = hasId store r.id := by
  rw [Bool.eq_iff_iff, hasId_iff, hasId_iff, deleteLoop_mem_ids, mem_ids_to_delete]
  have hrid : r.id ∈ recs.map (fun q => q.id) := List.mem_map_of_mem _ hr
  by_cases h : r.id ∈ store.map (fun q => q.hubspot_id) <;> simp [h, hrid]

/-- Counter-level correctness of the no-failure pass: `new` counts listing
records absent from the original table, `skipped` the present ones,
`deleted` the stored ids the listing dropped; no errors, nothing logged. -/
theorem syncPass_noFail_counts (store : List MirrorRow) (recs : List DfRow)
    (hnd : (recs.map (fun r => r.id)).Nodup) :
    ((syncPass (fun _ => false) (fun _ => false) (fun _ => false) store recs).new
        = recs.countP (fun r => !(hasId store r.id)))
    ∧ ((syncPass (fun _ => false) (fun _ => false) (fun _ => false) store recs).skipped
        = recs.countP (fun r => hasId store r.id))
    ∧ ((syncPass (fun _ => false) (fun _ => false) (fun _ => false) store recs).deleted
        = (ids_to_delete store recs).length)
    ∧ ((syncPass (fun _ => false) (fun _ => false) (fun _ => false) store recs).errors = 0)
    ∧ ((syncPass (fun _ => false) (fun _ => false) (fun _ => false) store recs).log = []) := by
  unfold syncPass
  obtain ⟨d1, d2, d3, d4, d5⟩ :=
    deleteLoop_counts (ids_to_delete store recs) ⟨store, 0, 0, 0, 0, []⟩
  obtain ⟨i1, i2, i3, i4, i5⟩ := insertLoop_counts_noFail recs
    ((ids_to_delete store recs).foldl (deleteStep (fun _ => false)) ⟨store, 0, 0, 0, 0, []⟩) hnd
  try simp only [] at d1 d2 d3 d4 d5
  have hcnew : recs.countP (fun r => !(hasId ((ids_to_delete store recs).foldl
      (deleteStep (fun _ => false)) ⟨store, 0, 0, 0, 0, []⟩).store r.id))
      = recs.countP (fun r => !(hasId store r.id)) :=
    List.countP_congr (by intro r hr; rw [deletePhase_hasId store recs r hr])
  have hcskip : recs.countP (fun r => hasId ((ids_to_delete store recs).foldl
      (deleteStep (fun _ => false)) ⟨store, 0, 0, 0, 0, []⟩).store r.id)
      = recs.countP (fun r => hasId store r.id) :=
    List.countP_congr (by intro r hr; rw [deletePhase_hasId store recs r hr])
  rw [hcnew] at i1
  rw [hcskip] at i2
  refine ⟨?_, ?_, ?_, ?_, ?_⟩
  · rw [i1, d1]; omega
  · rw [i2, d2]; omega
  · rw [i5, d3]; omega
  · rw [i3, d4]
  · rw [i4, d5]

theorem countP_nodup_card {l : List String} (hl : l.Nodup) (p : String → Bool) :
    l.countP p = (l.toFinset.filter (fun a => p a = true)).card := by
  rw [List.countP_eq_length_filter]
  rw [← List.toFinset_card_of_nodup (hl.filter p)]
  congr 1
  ext a
  simp [List.mem_filter, Finset.mem_filter]

theorem countP_id_map (p : String → Bool) (recs : List DfRow) :
    recs.countP (fun r => p r.id) = (recs.map (fun r => r.id)).countP p := by
  rw [List.countP_map]
  rfl

/-- `new` as a set cardinality: the listing ids minus the stored ids. -/
theorem new_count_card (store : List MirrorRow) (recs : List DfRow)
    (hnd : (recs.map (fun r => r.id)).Nodup) :
    recs.countP (fun r => !(hasId store r.id))
      = ((recs.map (fun r => r.id)).toFinset
          \ (store.map (fun r => r.hubspot_id)).toFinset).card := by
  rw [countP_id_map (fun i => !(hasId store i)) recs, countP_nodup_card hnd]
  congr 1
  ext a
  simp [Finset.mem_filter, Finset.mem_sdiff, List.mem_toFinset,
    Bool.not_eq_true', hasId_eq_false_iff]

/-- `skipped` as a set cardinality: the listing ids intersected with the
stored ids. -/
theorem skipped_count_card (store : List MirrorRow) (recs : List DfRow)
    (hnd : (recs.map (fun r => r.id)).Nodup) :
    recs.countP (fun r => hasId store r.id)
      = ((recs.map (fun r => r.id)).toFinset
          ∩ (store.map (fun r => r.hubspot_id)).toFinset).card := by
  rw [countP_id_map (fun i => hasId store i) recs, countP_nodup_card hnd]
  congr 1
  ext a
  simp [Finset.mem_filter, Finset.mem_inter, List.mem_toFinset, hasId_iff]

/-- `deleted` as a set cardinality: the stored ids minus the listing ids. -/
theorem deleted_count_card (store : List MirrorRow) (recs : List DfRow) :
    (ids_to_delete store recs).length
      = ((store.map (fun r => r.hubspot_id)).toFinset
          \ (recs.map (fun r => r.id)).toFinset).card := by
  have hnodup : (ids_to_delete store recs).Nodup := by
    unfold ids_to_delete
    exact (List.nodup_dedup _).filter _
  rw [← List.toFinset_card_of_nodup hnodup]
  congr 1
  ext a
  rw [List.mem_toFinset, mem_ids_to_delete, Finset.mem_sdiff,
    List.mem_toFinset, List.mem_toFinset]

/-- With both insert oracles silent, the insert loop produces no errors. -/
theorem insertLoop_noFail_errors (recs : List DfRow) (st : PassState) :
    (recs.foldl (insertStep (fun _ => false) (fun _ => false)) st).errors = st.errors := by
  induction recs generalizing st with
  | nil => rfl
  | cons r l ih =>
    rw [List.foldl_cons]
    by_cases h1 : hasId st.store r.id = true
    · have key : insertStep (fun _ => false) (fun _ => false) st r =
          { st with skipped := st.skipped + 1 } := by simp [insertStep, h1]
      rw [key, ih]
    · have key : insertStep (fun _ => false) (fun _ => false) st r =
          { st with store := st.store ++ [rowOfRecord r], new := st.new + 1 } := by
        simp [insertStep, h1]
      rw [key, ih]

/-- When every listed record is already present, the insert loop only counts
skips: the table, the other counters and the log are untouched. -/
theorem insertLoop_all_present (dupKey failIns : DfRow → Bool) (recs : List DfRow)
    (st : PassState) (h : ∀ r ∈ recs, hasId st.store r.id = true) :
    recs.foldl (insertStep dupKey failIns) st = { st with skipped := st.skipped + recs.length } := by
  induction recs generalizing st with
  | nil => simp
  | cons r l ih =>
    rw [List.foldl_cons]
    have key : insertStep dupKey failIns st r = { st with skipped := st.skipped + 1 } := by
      simp [insertStep, h r (List.mem_cons_self r l)]
    rw [key, ih { st with skipped := st.skipped + 1 }
      (by intro q hq; exact h q (List.mem_cons_of_mem r hq))]
    simp
    omega

/-- Folding single-id DELETEs is filtering by the whole id list. -/
theorem foldl_filter_eq (ids : List String) (w : List MirrorRow) :
    ids.foldl (fun acc i => acc.filter (fun r => r.hubspot_id != i)) w
      = w.filter (fun r => !(ids.contains r.hubspot_id)) := by
  induction ids generalizing w with
  | nil => simp
  | cons a l ih =>
    rw [List.foldl_cons, ih, List.filter_filter]
    apply List.filter_congr
    intro r _
    by_cases h : r.hubspot_id = a
    · simp [h]
    · simp [h, bne_iff_ne, List.contains_cons]

/-- DML events never touch the committed view. -/
theorem foldl_applyEvent_committed (evs : List SyncEvent)
    (h : SyncEvent.commit ∉ evs) (st : TxState) :
    (evs.foldl applyEvent st).committed = st.committed := by
  induction evs generalizing st with
  | nil => rfl
  | cons e rest ih =>
    rw [List.mem_cons, not_or] at h
    rw [List.foldl_cons]
    cases e with
    | deleteRow hid =>
      rw [ih h.2]
      rfl
    | insertRow r =>
      rw [ih h.2]
      rfl
    | commit => exact absurd rfl h.1

theorem commit_not_mem_insertEvents (recs : List DfRow) (cur : List MirrorRow) :
    SyncEvent.commit ∉ insertEvents cur recs := by
  induction recs generalizing cur with
  | nil => simp [insertEvents]
  | cons r rest ih =>
    rw [insertEvents]
    by_cases h : hasId cur r.id = true
    · rw [if_pos h]; exact ih cur
    · rw [if_neg h]
      intro hmem
      rcases List.mem_cons.mp hmem with hc | hc
      · exact SyncEvent.noConfusion hc
      · exact ih (cur ++ [rowOfRecord r]) hc

theorem commit_not_mem_deleteEvents (ids : List String) :
    SyncEvent.commit ∉ ids.map SyncEvent.deleteRow := by
  intro h
  rcases List.mem_map.mp h with ⟨i, _, hc⟩
  exact SyncEvent.noConfusion hc

/-- DML trace of the working view: delete events filter row by row. -/
theorem deleteEvents_working (ids : List String) (st : TxState) :
    ((ids.map SyncEvent.deleteRow).foldl applyEvent st).working
      = ids.foldl (fun acc i => acc.filter (fun r => r.hubspot_id != i)) st.working := by
  induction ids generalizing st with
  | nil => rfl
  | cons a l ih =>
    rw [List.map_cons, List.foldl_cons, List.foldl_cons]
    rw [show applyEvent st (SyncEvent.deleteRow a)
      = { st with working := st.working.filter (fun r => r.hubspot_id != a) } from rfl]
    rw [ih]

/-- Insert events evolve the working view exactly as the insert loop evolves
the pass's table. -/
theorem insertEvents_working (recs : List DfRow) (cur : List MirrorRow) (st : TxState)
    (ps : PassState) (hw : st.working = cur) (hs : ps.store = cur) :
    ((insertEvents cur recs).foldl applyEvent st).working
      = (recs.foldl (insertStep (fun _ => false) (fun _ => false)) ps).store := by
  induction recs generalizing cur st ps with
  | nil => simp [insertEvents, hw, hs]
  | cons r rest ih =>
    rw [insertEvents, List.foldl_cons]
    by_cases h : hasId cur r.id = true
    · rw [if_pos h]
      have key : insertStep (fun _ => false) (fun _ => false) ps r =
          { ps with skipped := ps.skipped + 1 } := by simp [insertStep, hs, h]
      rw [key]
      exact ih cur st { ps with skipped := ps.skipped + 1 } hw (by simpa using hs)
    · rw [if_neg h]
      have key : insertStep (fun _ => false) (fun _ => false) ps r =
          { ps with store := ps.store ++ [rowOfRecord r], new := ps.new + 1 } := by
        simp [insertStep, hs, h]
      rw [key, List.foldl_cons]
      exact ih (cur ++ [rowOfRecord r])
        { st with working := st.working ++ [rowOfRecord r] }
        { ps with store := ps.store ++ [rowOfRecord r], new := ps.new + 1 }
        (by simpa using congrArg (fun w => w ++ [rowOfRecord r]) hw)
        (by simpa using congrArg (fun w => w ++ [rowOfRecord r]) hs)

/-- The table the no-failure delete loop leaves behind, as a list. -/
theorem deleteLoop_store (ids : List String) (st : PassState) :
    (ids.foldl (deleteStep (fun _ => false)) st).store
      = ids.foldl (fun acc i => acc.filter (fun r => r.hubspot_id != i)) st.store := by
  induction ids generalizing st with
  | nil => rfl
  | cons a l ih =>
    rw [List.foldl_cons, List.foldl_cons]
    have key : deleteStep (fun _ => false) st a =
        { st with store := st.store.filter (fun r => r.hubspot_id != a),
                  deleted := st.deleted + 1 } := by simp [deleteStep]
    rw [key, ih]

/-- Surviving the delete phase is the same as still being listed: for a
stored row, "id not in `ids_to_delete`" and "id in the listing" agree. -/
theorem filter_not_deleted_eq_seed (store : List MirrorRow) (recs : List DfRow) :
    store.filter (fun r => !((ids_to_delete store recs).contains r.hubspot_id))
      = store.filter (fun r => (recs.map (fun q => q.id)).contains r.hubspot_id) := by
  apply List.filter_congr
  intro r hr
  rw [Bool.eq_iff_iff, Bool.not_eq_true']
  have h1 : ((ids_to_delete store recs).contains r.hubspot_id = false)
      ↔ r.hubspot_id ∉ ids_to_delete store recs := by
    simp [List.contains]
  have h2 : (((recs.map (fun q => q.id)).contains r.hubspot_id) = true)
      ↔ r.hubspot_id ∈ recs.map (fun q => q.id) := by
    simp [List.contains]
  rw [h1, h2, mem_ids_to_delete]
  have hmem : r.hubspot_id ∈ store.map (fun q => q.hubspot_id) := List.mem_map_of_mem _ hr
  simp [hmem]

/-- The working view at the end of the DML trace is exactly the table the
pass leaves behind. -/
theorem runEvents_working (store : List MirrorRow) (recs : List DfRow) :
    (runEvents store (syncEvents store recs)).working
      = (syncPass (fun _ => false) (fun _ => false) (fun _ => false) store recs).store := by
  unfold runEvents syncEvents syncPass
  rw [List.append_assoc, List.foldl_append, List.foldl_append]
  rw [show ∀ st : TxState, ([SyncEvent.commit].foldl applyEvent st).working = st.working
    from fun st => rfl]
  apply insertEvents_working
  · rw [deleteEvents_working, foldl_filter_eq]
    exact filter_not_deleted_eq_seed store recs
  · rw [deleteLoop_store, foldl_filter_eq]
    exact filter_not_deleted_eq_seed store recs

/-- Claim C1, counterexample to the claim as stated: with mirror = {"1"} and
remote listing R = [] (an admissible listing), the pass completes with no
row-level errors, yet the mirror still holds id "1" (so its id set is not the
empty id set of R) and `deleted` is 0, not |L − R| = 1. -/
theorem C1_counterexample :
    ("1" ∈ (sync_customers_to_db true (fun _ => false) (fun _ => false) (fun _ => false)
        [⟨"1", "a", "b", "c", "d", "e"⟩] (some ([] : List DfRow))).store.map
          (fun r => r.hubspot_id))
    ∧ ("1" ∉ (([] : List DfRow)).map (fun r => r.id))
    ∧ (sync_customers_to_db true (fun _ => false) (fun _ => false) (fun _ => false)
        [⟨"1", "a", "b", "c", "d", "e"⟩] (some ([] : List DfRow))).counts.deleted = 0
    ∧ ((([⟨"1", "a", "b", "c", "d", "e"⟩] : List MirrorRow).map
          (fun r => r.hubspot_id)).toFinset
        \ (([] : List DfRow).map (fun r => r.id)).toFinset).card = 1 := by
  refine ⟨?_, ?_, ?_, ?_⟩ <;> decide

/-- Claim C1 (amended: for every NONEMPTY remote listing R, whose ids are
pairwise distinct as the data model requires): when the sync completes with
no row-level errors, the mirror id set afterwards equals the id set of R,
and new = |R − L|, deleted = |L − R|, skipped = |R ∩ L|, errors = 0. -/
theorem C1_set_correctness (store : List MirrorRow) (recs : List DfRow)
    (hne : recs ≠ []) (hnd : (recs.map (fun r => r.id)).Nodup) :
    (∀ x, x ∈ (sync_customers_to_db true (fun _ => false) (fun _ => false) (fun _ => false)
        store (some recs)).store.map (fun r => r.hubspot_id)
        ↔ x ∈ recs.map (fun r => r.id))
    ∧ (sync_customers_to_db true (fun _ => false) (fun _ => false) (fun _ => false)
        store (some recs)).counts.new
      = ((recs.map (fun r => r.id)).toFinset
          \ (store.map (fun r => r.hubspot_id)).toFinset).card
    ∧ (sync_customers_to_db true (fun _ => false) (fun _ => false) (fun _ => false)
        store (some recs)).counts.deleted
      = ((store.map (fun r => r.hubspot_id)).toFinset
          \ (recs.map (fun r => r.id)).toFinset).card
    ∧ (sync_customers_to_db true (fun _ => false) (fun _ => false) (fun _ => false)
        store (some recs)).counts.skipped
      = ((recs.map (fun r => r.id)).toFinset
          ∩ (store.map (fun r => r.hubspot_id)).toFinset).card
    ∧ (sync_customers_to_db true (fun _ => false) (fun _ => false) (fun _ => false)
        store (some recs)).counts.errors = 0 := by
  rw [sync_eq_pass (fun _ => false) (fun _ => false) (fun _ => false) store recs hne]
  obtain ⟨c1, c2, c3, c4, c5⟩ := syncPass_noFail_counts store recs hnd
  refine ⟨?_, ?_, ?_, ?_, ?_⟩
  · intro x
    exact syncPass_noFail_mem store recs x
  · show (syncPass (fun _ => false) (fun _ => false) (fun _ => false) store recs).new = _
    rw [c1]
    exact new_count_card store recs hnd
  · show (syncPass (fun _ => false) (fun _ => false) (fun _ => false) store recs).deleted = _
    rw [c3]
    exact deleted_count_card store recs
  · show (syncPass (fun _ => false) (fun _ => false) (fun _ => false) store recs).skipped = _
    rw [c2]
    exact skipped_count_card store recs hnd
  · show (syncPass (fun _ => false) (fun _ => false) (fun _ => false) store recs).errors = 0
    exact c4

/-- Witness for C1_set_correctness at mirror {"1","3"} and listing ["1","2"]. -/
theorem C1_set_correctness_witness :
    (([⟨"1", none, none, none, none, none⟩, ⟨"2", none, none, none, none, none⟩] : List DfRow) ≠ []
      ∧ (([⟨"1", none, none, none, none, none⟩, ⟨"2", none, none, none, none, none⟩] : List DfRow).map
          (fun r => r.id)).Nodup)
    ∧ ((∀ x, x ∈ (sync_customers_to_db true (fun _ => false) (fun _ => false) (fun _ => false)
        [⟨"1", "a", "b", "c", "d", "e"⟩, ⟨"3", "a", "b", "c", "d", "e"⟩]
        (some [⟨"1", none, none, none, none, none⟩, ⟨"2", none, none, none, none, none⟩])).store.map
          (fun r => r.hubspot_id)
        ↔ x ∈ ([⟨"1", none, none, none, none, none⟩, ⟨"2", none, none, none, none, none⟩] : List DfRow).map
          (fun r => r.id))
    ∧ (sync_customers_to_db true (fun _ => false) (fun _ => false) (fun _ => false)
        [⟨"1", "a", "b", "c", "d", "e"⟩, ⟨"3", "a", "b", "c", "d", "e"⟩]
        (some [⟨"1", none, none, none, none, none⟩, ⟨"2", none, none, none, none, none⟩])).counts.new
      = ((([⟨"1", none, none, none, none, none⟩, ⟨"2", none, none, none, none, none⟩] : List DfRow).map
          (fun r => r.id)).toFinset
          \ (([⟨"1", "a", "b", "c", "d", "e"⟩, ⟨"3", "a", "b", "c", "d", "e"⟩] : List MirrorRow).map
            (fun r => r.hubspot_id)).toFinset).card
    ∧ (sync_customers_to_db true (fun _ => false) (fun _ => false) (fun _ => false)
        [⟨"1", "a", "b", "c", "d", "e"⟩, ⟨"3", "a", "b", "c", "d", "e"⟩]
        (some [⟨"1", none, none, none, none, none⟩, ⟨"2", none, none, none, none, none⟩])).counts.deleted
      = ((([⟨"1", "a", "b", "c", "d", "e"⟩, ⟨"3", "a", "b", "c", "d", "e"⟩] : List MirrorRow).map
            (fun r => r.hubspot_id)).toFinset
          \ (([⟨"1", none, none, none, none, none⟩, ⟨"2", none, none, none, none, none⟩] : List DfRow).map
            (fun r => r.id)).toFinset).card
    ∧ (sync_customers_to_db true (fun _ => false) (fun _ => false) (fun _ => false)
        [⟨"1", "a", "b", "c", "d", "e"⟩, ⟨"3", "a", "b", "c", "d", "e"⟩]
        (some [⟨"1", none, none, none, none, none⟩, ⟨"2", none, none, none, none, none⟩])).counts.skipped
      = ((([⟨"1", none, none, none, none, none⟩, ⟨"2", none, none, none, none, none⟩] : List DfRow).map
          (fun r => r.id)).toFinset
          ∩ (([⟨"1", "a", "b", "c", "d", "e"⟩, ⟨"3", "a", "b", "c", "d", "e"⟩] : List MirrorRow).map
            (fun r => r.hubspot_id)).toFinset).card
    ∧ (sync_customers_to_db true (fun _ => false) (fun _ => false) (fun _ => false)
        [⟨"1", "a", "b", "c", "d", "e"⟩, ⟨"3", "a", "b", "c", "d", "e"⟩]
        (some [⟨"1", none, none, none, none, none⟩, ⟨"2", none, none, none, none, none⟩])).counts.errors = 0) :=
  ⟨⟨by decide, by decide⟩,
    C1_set_correctness [⟨"1", "a", "b", "c", "d", "e"⟩, ⟨"3", "a", "b", "c", "d", "e"⟩]
      [⟨"1", none, none, none, none, none⟩, ⟨"2", none, none, none, none, none⟩]
      (by decide) (by decide)⟩

/-- Claim C2: an absent (None) or empty remote listing returns all-zero
counts and leaves every row of the mirror unchanged, for every mirror state,
every connectivity state and every failure oracle — in particular nothing is
deleted and nothing is logged. -/
theorem C2_empty_fetch_safety (connOk : Bool) (failDel : String → Bool)
    (dupKey failIns : DfRow → Bool) (store : List MirrorRow) :
    sync_customers_to_db connOk failDel dupKey failIns store none
      = ⟨⟨0, 0, 0, 0⟩, store, [], false⟩
    ∧ sync_customers_to_db connOk failDel dupKey failIns store (some [])
      = ⟨⟨0, 0, 0, 0⟩, store, [], false⟩ :=
  ⟨rfl, rfl⟩

/-- Claim C10: the empty-listing check precedes the connection attempt, so
with the store unreachable an empty or absent listing still returns all-zero
counts (errors stays 0), attempts no connection, and logs nothing. -/
theorem C10_empty_listing_no_store_access (failDel : String → Bool)
    (dupKey failIns : DfRow → Bool) (store : List MirrorRow) :
    ((sync_customers_to_db false failDel dupKey failIns store none
        = ⟨⟨0, 0, 0, 0⟩, store, [], false⟩)
      ∧ (sync_customers_to_db false failDel dupKey failIns store none).connAttempted = false
      ∧ (sync_customers_to_db false failDel dupKey failIns store none).log = [])
    ∧ ((sync_customers_to_db false failDel dupKey failIns store (some [])
        = ⟨⟨0, 0, 0, 0⟩, store, [], false⟩)
      ∧ (sync_customers_to_db false failDel dupKey failIns store (some [])).connAttempted = false
      ∧ (sync_customers_to_db false failDel dupKey failIns store (some [])).log = []) :=
  ⟨⟨rfl, rfl, rfl⟩, ⟨rfl, rfl, rfl⟩⟩

/-- Claim C6, counterexample to the claim as stated: the store is unreachable
(`connOk = false`) at call time, yet with an empty listing the call returns
errors = 0 (not 1) and logs no connectivity error, because the empty-listing
early return precedes the connection attempt. -/
theorem C6_counterexample :
    (sync_customers_to_db false (fun _ => false) (fun _ => false) (fun _ => false)
        [] (some ([] : List DfRow))).counts.errors = 0
    ∧ (sync_customers_to_db false (fun _ => false) (fun _ => false) (fun _ => false)
        [] (some ([] : List DfRow))).log = []
    ∧ ¬ ((sync_customers_to_db false (fun _ => false) (fun _ => false) (fun _ => false)
        [] (some ([] : List DfRow))).counts = ⟨0, 0, 0, 1⟩) := by
  refine ⟨?_, ?_, ?_⟩ <;> decide

/-- Claim C6 (amended: for a NONEMPTY listing): whenever the mirror store is
unreachable at call time, the call returns {new 0, skipped 0, deleted 0,
errors 1}, logs the connectivity error, leaves the mirror unchanged, and (the
model being a total function) no exception propagates. -/
theorem C6_unreachable_store (failDel : String → Bool) (dupKey failIns : DfRow → Bool)
    (store : List MirrorRow) (recs : List DfRow) (hne : recs ≠ []) :
    sync_customers_to_db false failDel dupKey failIns store (some recs)
      = ⟨⟨0, 0, 0, 1⟩, store, ["Cannot connect to database for sync"], true⟩ := by
  have hlen : ¬ recs.length = 0 := by simpa [List.length_eq_zero] using hne
  simp [sync_customers_to_db, hlen]

/-- Witness for C6_unreachable_store at a one-record listing. -/
theorem C6_unreachable_store_witness :
    (([⟨"1", none, none, none, none, none⟩] : List DfRow) ≠ [])
    ∧ sync_customers_to_db false (fun _ => false) (fun _ => false) (fun _ => false)
        [] (some [⟨"1", none, none, none, none, none⟩])
      = ⟨⟨0, 0, 0, 1⟩, [], ["Cannot connect to database for sync"], true⟩ :=
  ⟨by decide,
    C6_unreachable_store (fun _ => false) (fun _ => false) (fun _ => false) []
      [⟨"1", none, none, none, none, none⟩] (by decide)⟩

/-- Claim C4: a mirror row whose id appears in the listing is still present,
with all its contact fields identical, after the pass — for every
connectivity state and every failure oracle; the sync path never updates
fields in place. -/
theorem C4_no_update_in_place (connOk : Bool) (failDel : String → Bool)
    (dupKey failIns : DfRow → Bool) (store : List MirrorRow) (recs : List DfRow)
    (row : MirrorRow) (hmem : row ∈ store)
    (hid : row.hubspot_id ∈ recs.map (fun r => r.id)) :
    row ∈ (sync_customers_to_db connOk failDel dupKey failIns store (some recs)).store := by
  by_cases hempty : recs.length = 0
  · simp [sync_customers_to_db, hempty, hmem]
  · cases connOk with
    | false =>
      simp [sync_customers_to_db, hempty, hmem]
    | true =>
      have hne : recs ≠ [] := by
        intro h
        exact hempty (by simp [h])
      rw [sync_eq_pass failDel dupKey failIns store recs hne]
      show row ∈ (syncPass failDel dupKey failIns store recs).store
      unfold syncPass
      refine insertLoop_mem_mono dupKey failIns recs _ row ?_
      refine deleteLoop_mem_mono failDel (ids_to_delete store recs) _ row hmem ?_
      intro hdel
      exact ((mem_ids_to_delete store recs row.hubspot_id).mp hdel).2 hid

/-- Witness for C4_no_update_in_place: the remote record for id "1" changed
its email upstream, but the mirrored row keeps its original fields. -/
theorem C4_no_update_in_place_witness :
    ((⟨"1", "old@x.com", "b", "c", "d", "e"⟩ : MirrorRow)
        ∈ ([⟨"1", "old@x.com", "b", "c", "d", "e"⟩] : List MirrorRow)
      ∧ "1" ∈ ([⟨"1", some "new@x.com", none, none, none, none⟩] : List DfRow).map
          (fun r => r.id))
    ∧ (⟨"1", "old@x.com", "b", "c", "d", "e"⟩ : MirrorRow)
        ∈ (sync_customers_to_db true (fun _ => false) (fun _ => false) (fun _ => false)
          [⟨"1", "old@x.com", "b", "c", "d", "e"⟩]
          (some [⟨"1", some "new@x.com", none, none, none, none⟩])).store :=
  ⟨⟨by decide, by decide⟩,
    C4_no_update_in_place true (fun _ => false) (fun _ => false) (fun _ => false)
      [⟨"1", "old@x.com", "b", "c", "d", "e"⟩]
      [⟨"1", some "new@x.com", none, none, none, none⟩]
      ⟨"1", "old@x.com", "b", "c", "d", "e"⟩ (by decide) (by decide)⟩

/-- A pass over a table that already holds exactly the listed ids: nothing
to delete, every record already present, so the counters are
{new 0, skipped |R|, deleted 0, errors 0}. -/
theorem syncPass_all_present_counts (store2 : List MirrorRow) (recs : List DfRow)
    (hmem : ∀ x, x ∈ store2.map (fun r => r.hubspot_id) ↔ x ∈ recs.map (fun r => r.id)) :
    ((syncPass (fun _ => false) (fun _ => false) (fun _ => false) store2 recs).new = 0)
    ∧ ((syncPass (fun _ => false) (fun _ => false) (fun _ => false) store2 recs).skipped
        = recs.length)
    ∧ ((syncPass (fun _ => false) (fun _ => false) (fun _ => false) store2 recs).deleted = 0)
    ∧ ((syncPass (fun _ => false) (fun _ => false) (fun _ => false) store2 recs).errors = 0) := by
  have hdel : ids_to_delete store2 recs = [] := by
    unfold ids_to_delete
    rw [List.filter_eq_nil_iff]
    intro a ha
    rw [List.mem_dedup] at ha
    have hr : a ∈ recs.map (fun r => r.id) := (hmem a).mp ha
    simp [List.contains, hr]
  unfold syncPass
  rw [hdel, List.foldl_nil]
  rw [insertLoop_all_present (fun _ => false) (fun _ => false) recs _ ?hpres]
  case hpres =>
    intro r hr
    rw [hasId_iff]
    exact (hmem r.id).mpr (List.mem_map_of_mem (fun q => q.id) hr)
  refine ⟨rfl, by simp, rfl, rfl⟩

/-- Claim C3, counterexample to the claim as stated: mirror already holds
id "1", listing is ["1","2"].  The first run inserts 1 record, but the second
run returns skipped = 2, not skipped = 1 as the claim ("N = number of records
inserted by the first run") predicts. -/
theorem C3_counterexample :
    (sync_customers_to_db true (fun _ => false) (fun _ => false) (fun _ => false)
        [⟨"1", "a", "b", "c", "d", "e"⟩]
        (some [⟨"1", none, none, none, none, none⟩,
               ⟨"2", none, none, none, none, none⟩])).counts.new = 1
    ∧ (sync_customers_to_db true (fun _ => false) (fun _ => false) (fun _ => false)
        ((sync_customers_to_db true (fun _ => false) (fun _ => false) (fun _ => false)
          [⟨"1", "a", "b", "c", "d", "e"⟩]
          (some [⟨"1", none, none, none, none, none⟩,
                 ⟨"2", none, none, none, none, none⟩])).store)
        (some [⟨"1", none, none, none, none, none⟩,
               ⟨"2", none, none, none, none, none⟩])).counts.skipped = 2
    ∧ ¬ ((sync_customers_to_db true (fun _ => false) (fun _ => false) (fun _ => false)
        ((sync_customers_to_db true (fun _ => false) (fun _ => false) (fun _ => false)
          [⟨"1", "a", "b", "c", "d", "e"⟩]
          (some [⟨"1", none, none, none, none, none⟩,
                 ⟨"2", none, none, none, none, none⟩])).store)
        (some [⟨"1", none, none, none, none, none⟩,
               ⟨"2", none, none, none, none, none⟩])).counts
      = ⟨0, 1, 0, 0⟩) := by
  refine ⟨?_, ?_, ?_⟩ <;> decide

/-- Claim C3 (amended: N is the total number of records in the listing,
equal to new + skipped of the first run, not just the records the first run
inserted): with no row-level errors on either pass, the second of two
back-to-back runs over an unchanged listing returns
{new 0, skipped N, deleted 0, errors 0}. -/
theorem C3_idempotence (store : List MirrorRow) (recs : List DfRow) :
    ((sync_customers_to_db true (fun _ => false) (fun _ => false) (fun _ => false)
        ((sync_customers_to_db true (fun _ => false) (fun _ => false) (fun _ => false)
          store (some recs)).store) (some recs)).counts
      = ⟨0, recs.length, 0, 0⟩)
    ∧ ((sync_customers_to_db true (fun _ => false) (fun _ => false) (fun _ => false)
        store (some recs)).counts.new
      + (sync_customers_to_db true (fun _ => false) (fun _ => false) (fun _ => false)
        store (some recs)).counts.skipped
      = recs.length) := by
  by_cases hne : recs = []
  · subst hne
    exact ⟨rfl, rfl⟩
  · constructor
    · rw [sync_eq_pass _ _ _ _ _ hne, sync_eq_pass _ _ _ _ _ hne]
      obtain ⟨a, b, c, d⟩ := syncPass_all_present_counts
        ((syncPass (fun _ => false) (fun _ => false) (fun _ => false) store recs).store) recs
        (syncPass_noFail_mem store recs)
      try simp only []
      rw [a, b, c, d]
    · rw [sync_eq_pass _ _ _ _ _ hne]
      try simp only []
      show (syncPass (fun _ => false) (fun _ => false) (fun _ => false) store recs).new
          + (syncPass (fun _ => false) (fun _ => false) (fun _ => false) store recs).skipped
          = recs.length
      unfold syncPass
      obtain ⟨acc1, acc2, acc3⟩ := insertLoop_accounting (fun _ => false) (fun _ => false) recs
        ((ids_to_delete store recs).foldl (deleteStep (fun _ => false)) ⟨store, 0, 0, 0, 0, []⟩)
      obtain ⟨d1, d2, d3, d4, d5⟩ :=
        deleteLoop_counts (ids_to_delete store recs) ⟨store, 0, 0, 0, 0, []⟩
      have herr := insertLoop_noFail_errors recs
        ((ids_to_delete store recs).foldl (deleteStep (fun _ => false)) ⟨store, 0, 0, 0, 0, []⟩)
      try simp only [] at acc1 d1 d2 d4 herr
      omega

/-- Claim C9: the insert loop visits every record of the listing — each
record bumps exactly one of new/skipped/errors (their joint increase equals
the listing length, so no single-record failure stops the remaining
records), each failure appends exactly one log entry, and the four possible
single-record outcomes are: already present → skipped, duplicate key →
skipped, other insert failure → error + log, success → row appended + new.
The loop steps to the remaining records unconditionally. -/
theorem C9_insert_loop_row_errors (dupKey failIns : DfRow → Bool)
    (recs : List DfRow) (st : PassState) :
    ((recs.foldl (insertStep dupKey failIns) st).new
        + (recs.foldl (insertStep dupKey failIns) st).skipped
        + (recs.foldl (insertStep dupKey failIns) st).errors
      = st.new + st.skipped + st.errors + recs.length)
    ∧ ((recs.foldl (insertStep dupKey failIns) st).log.length + st.errors
      = st.log.length + (recs.foldl (insertStep dupKey failIns) st).errors)
    ∧ (∀ r s, hasId s.store r.id = true →
        insertStep dupKey failIns s r = { s with skipped := s.skipped + 1 })
    ∧ (∀ r s, hasId s.store r.id = false → dupKey r = true →
        insertStep dupKey failIns s r = { s with skipped := s.skipped + 1 })
    ∧ (∀ r s, hasId s.store r.id = false → dupKey r = false → failIns r = true →
        insertStep dupKey failIns s r
          = { s with errors := s.errors + 1,
                     log := s.log ++ ["Error inserting customer " ++ r.id] })
    ∧ (∀ r s, hasId s.store r.id = false → dupKey r = false → failIns r = false →
        insertStep dupKey failIns s r
          = { s with store := s.store ++ [rowOfRecord r], new := s.new + 1 })
    ∧ (∀ r rest s, (r :: rest).foldl (insertStep dupKey failIns) s
        = rest.foldl (insertStep dupKey failIns) (insertStep dupKey failIns s r)) := by
  obtain ⟨acc1, acc2, acc3⟩ := insertLoop_accounting dupKey failIns recs st
  refine ⟨acc1, acc2, ?_, ?_, ?_, ?_, ?_⟩
  · intro r s h1
    simp [insertStep, h1]
  · intro r s h1 h2
    simp [insertStep, h1, h2]
  · intro r s h1 h2 h3
    simp [insertStep, h1, h2, h3]
  · intro r s h1 h2 h3
    simp [insertStep, h1, h2, h3]
  · intro r rest s
    exact List.foldl_cons rest s

/-- Witness for C9 at a one-record listing whose insert fails: the error is
counted, logged, and accounted against the listing length. -/
theorem C9_insert_loop_row_errors_witness :
    ((([⟨"1", none, none, none, none, none⟩] : List DfRow).foldl
        (insertStep (fun _ => false) (fun _ => true)) ⟨[], 0, 0, 0, 0, []⟩).new
      + (([⟨"1", none, none, none, none, none⟩] : List DfRow).foldl
        (insertStep (fun _ => false) (fun _ => true)) ⟨[], 0, 0, 0, 0, []⟩).skipped
      + (([⟨"1", none, none, none, none, none⟩] : List DfRow).foldl
        (insertStep (fun _ => false) (fun _ => true)) ⟨[], 0, 0, 0, 0, []⟩).errors
      = 0 + 0 + 0 + 1)
    ∧ insertStep (fun _ => false) (fun _ => true) ⟨[], 0, 0, 0, 0, []⟩
        ⟨"1", none, none, none, none, none⟩
      = ⟨[], 0, 0, 0, 1, ["Error inserting customer 1"]⟩ :=
  ⟨(C9_insert_loop_row_errors (fun _ => false) (fun _ => true)
      [⟨"1", none, none, none, none, none⟩] ⟨[], 0, 0, 0, 0, []⟩).1,
   by
    have h := (C9_insert_loop_row_errors (fun _ => false) (fun _ => true)
      [] ⟨[], 0, 0, 0, 0, []⟩).2.2.2.2.1
      ⟨"1", none, none, none, none, none⟩ ⟨[], 0, 0, 0, 0, []⟩ (by decide) rfl rfl
    exact h⟩

/-- Claim C5, counterexample to the claim as stated: on an empty mirror with
listing ["1","2"], the pass's DML trace is two inserts followed by one single
commit — there is no commit after each row operation, and if the pass is
aborted after both row operations (prefix of length 2), the committed mirror
is still empty: the already-performed operations are NOT persisted. -/
theorem C5_counterexample :
    syncEvents [] [⟨"1", none, none, none, none, none⟩, ⟨"2", none, none, none, none, none⟩]
      = [SyncEvent.insertRow ⟨"1", none, none, none, none, none⟩,
         SyncEvent.insertRow ⟨"2", none, none, none, none, none⟩,
         SyncEvent.commit]
    ∧ (runEvents []
        ((syncEvents [] [⟨"1", none, none, none, none, none⟩,
            ⟨"2", none, none, none, none, none⟩]).take 2)).committed = []
    ∧ (runEvents []
        ((syncEvents [] [⟨"1", none, none, none, none, none⟩,
            ⟨"2", none, none, none, none, none⟩]).take 2)).working
      = [⟨"1", "N/A", "N/A", "N/A", "N/A", "N/A"⟩, ⟨"2", "N/A", "N/A", "N/A", "N/A", "N/A"⟩] := by
  refine ⟨?_, ?_, ?_⟩ <;> decide

/-- Claim C5 (amended): the pass's row operations run inside one transaction
with a single commit as its very last event; aborting the pass anywhere
before that commit leaves the mirror exactly as it was before the pass
(nothing already performed is persisted), and only the final commit makes
the whole pass's working table durable — which is exactly the table the
pass computes. -/
theorem C5_single_commit_at_end (store : List MirrorRow) (recs : List DfRow) :
    (∃ pre, syncEvents store recs = pre ++ [SyncEvent.commit] ∧ SyncEvent.commit ∉ pre)
    ∧ (∀ k, k < (syncEvents store recs).length →
        (runEvents store ((syncEvents store recs).take k)).committed = store)
    ∧ ((runEvents store (syncEvents store recs)).committed
        = (runEvents store (syncEvents store recs)).working)
    ∧ ((runEvents store (syncEvents store recs)).working
        = (syncPass (fun _ => false) (fun _ => false) (fun _ => false) store recs).store) := by
  have hassoc : syncEvents store recs =
      ((ids_to_delete store recs).map SyncEvent.deleteRow
        ++ insertEvents (store.filter
            (fun r => (recs.map (fun q => q.id)).contains r.hubspot_id)) recs)
      ++ [SyncEvent.commit] := by
    unfold syncEvents
    rw [List.append_assoc]
  have hnot : SyncEvent.commit ∉
      (ids_to_delete store recs).map SyncEvent.deleteRow
        ++ insertEvents (store.filter
            (fun r => (recs.map (fun q => q.id)).contains r.hubspot_id)) recs := by
    rw [List.mem_append, not_or]
    exact ⟨commit_not_mem_deleteEvents _, commit_not_mem_insertEvents _ _⟩
  refine ⟨⟨_, hassoc, hnot⟩, ?_, ?_, runEvents_working store recs⟩
  · intro k hk
    rw [hassoc] at hk ⊢
    rw [List.length_append, List.length_cons, List.length_nil] at hk
    rw [List.take_append_of_le_length (by omega)]
    unfold runEvents
    exact foldl_applyEvent_committed _
      (fun hmem => hnot (List.take_subset k _ hmem)) _
  · rw [hassoc]
    unfold runEvents
    rw [List.foldl_append]
    rfl

/-- Witness for C5_single_commit_at_end at an empty mirror and a one-record
listing, aborting just before the trailing commit. -/
theorem C5_single_commit_at_end_witness :
    (1 < (syncEvents [] [⟨"1", none, none, none, none, none⟩]).length
      ∧ (runEvents []
          ((syncEvents [] [⟨"1", none, none, none, none, none⟩]).take 1)).committed = [])
    ∧ (runEvents [] (syncEvents [] [⟨"1", none, none, none, none, none⟩])).committed
      = (runEvents [] (syncEvents [] [⟨"1", none, none, none, none, none⟩])).working :=
  ⟨⟨by decide,
    (C5_single_commit_at_end [] [⟨"1", none, none, none, none, none⟩]).2.1 1 (by decide)⟩,
   (C5_single_commit_at_end [] [⟨"1", none, none, none, none, none⟩]).2.2.1⟩

/-- A non-truthy argument (None or empty string) adds nothing to the
properties dict. -/
theorem appendIfProvided_of_not (props : List (String × String)) (key : String)
    (v : Option String) (h : truthy v = false) : appendIfProvided props key v = props := by
  cases v with
  | none => rfl
  | some s =>
    have hs : (s == "") = true := by simpa [truthy] using h
    simp [appendIfProvided, hs]

/-- Claim C7: an update call in which no field is provided (every optional
argument is None or empty, i.e. falsy in the source's `if field:` tests)
returns the typed failure {success: False, error: "No properties provided to
update"} and issues no HTTP request, for every contact id and every backend
behaviour. -/
theorem C7_update_no_fields (patchOk : List (String × String) → Bool) (contact_id : String)
    (email firstname lastname phone company : Option String)
    (h1 : truthy email = false) (h2 : truthy firstname = false)
    (h3 : truthy lastname = false) (h4 : truthy phone = false)
    (h5 : truthy company = false) :
    update_customer patchOk contact_id email firstname lastname phone company
      = ⟨false, some "No properties provided to update", false⟩ := by
  unfold update_customer update_customer_properties
  rw [appendIfProvided_of_not _ _ _ h1, appendIfProvided_of_not _ _ _ h2,
    appendIfProvided_of_not _ _ _ h3, appendIfProvided_of_not _ _ _ h4,
    appendIfProvided_of_not _ _ _ h5]
  rfl

/-- Witness for C7 with all five fields absent. -/
theorem C7_update_no_fields_witness :
    (truthy none = false)
    ∧ update_customer (fun _ => true) "123" none none none none none
      = ⟨false, some "No properties provided to update", false⟩ :=
  ⟨rfl, C7_update_no_fields (fun _ => true) "123" none none none none none
    rfl rfl rfl rfl rfl⟩

/-- Claim C8: every record produced by the fetch parser comes from a listed
contact, and each of its five optional fields that is missing upstream (no
such key in the property bag, or no bag at all) is the sentinel "N/A"; the
record type carries all five fields as plain strings, so none is ever absent
or null. -/
theorem C8_missing_fields_na (contacts : List ApiContact) (fcs : List FetchedCustomer)
    (hout : fetch_customers contacts = some fcs)
    (fc : FetchedCustomer) (hfc : fc ∈ fcs) :
    ∃ c, c ∈ contacts ∧ fc = parseContact c
    ∧ ((c.props.getD []).lookup "email" = none → fc.email = "N/A")
    ∧ ((c.props.getD []).lookup "firstname" = none → fc.firstName = "N/A")
    ∧ ((c.props.getD []).lookup "lastname" = none → fc.lastName = "N/A")
    ∧ ((c.props.getD []).lookup "phone" = none → fc.phone = "N/A")
    ∧ ((c.props.getD []).lookup "company" = none → fc.company = "N/A") := by
  unfold fetch_customers at hout
  by_cases hemp : contacts.isEmpty
  · rw [if_pos hemp] at hout
    exact absurd hout (by simp)
  · rw [if_neg hemp] at hout
    have hfcs : fcs = contacts.map parseContact := by
      injection hout with h
      exact h.symm
    subst hfcs
    rcases List.mem_map.mp hfc with ⟨c, hc, rfl⟩
    refine ⟨c, hc, rfl, ?_, ?_, ?_, ?_, ?_⟩ <;>
      intro hnone <;> simp [parseContact, contactField, hnone]

/-- Witness for C8 at a contact with no property bag at all: every optional
field of the parsed record is "N/A". -/
theorem C8_missing_fields_na_witness :
    (fetch_customers [⟨some "1", none⟩] = some [parseContact ⟨some "1", none⟩]
      ∧ parseContact ⟨some "1", none⟩ ∈ [parseContact ⟨some "1", none⟩]
      ∧ (parseContact (⟨some "1", none⟩ : ApiContact)).email = "N/A"
      ∧ (parseContact (⟨some "1", none⟩ : ApiContact)).company = "N/A")
    ∧ (∃ c, c ∈ [(⟨some "1", none⟩ : ApiContact)]
        ∧ parseContact (⟨some "1", none⟩ : ApiContact) = parseContact c
        ∧ ((c.props.getD []).lookup "email" = none
            → (parseContact (⟨some "1", none⟩ : ApiContact)).email = "N/A")
        ∧ ((c.props.getD []).lookup "firstname" = none
            → (parseContact (⟨some "1", none⟩ : ApiContact)).firstName = "N/A")
        ∧ ((c.props.getD []).lookup "lastname" = none
            → (parseContact (⟨some "1", none⟩ : ApiContact)).lastName = "N/A")
        ∧ ((c.props.getD []).lookup "phone" = none
            → (parseContact (⟨some "1", none⟩ : ApiContact)).phone = "N/A")
        ∧ ((c.props.getD []).lookup "company" = none
            → (parseContact (⟨some "1", none⟩ : ApiContact)).company = "N/A")) :=
  ⟨⟨rfl, by simp, by decide, by decide⟩,
   C8_missing_fields_na [⟨some "1", none⟩] [parseContact ⟨some "1", none⟩] rfl
     (parseContact ⟨some "1", none⟩) (by simp)⟩
